import Mathlib

/-!
# Inventory Manager — shallow embedding

A shallow embedding of the inventory-manager program (`Source.cpp`):
the polymorphic `Product` hierarchy becomes a structure with a closed
variant tag, and the `InventoryManager` class becomes explicit state
passing over a record holding the catalog map (an association list kept
in `std::map` key order), the audit-log file contents and the snapshot
file contents.  C++ `int` is modelled as `Int`; `double` prices and
percentages are modelled as exact rationals `ℚ` (the arithmetic
expressions are carried over verbatim).  Timestamps come from an
external clock and are opaque; the log-line model records the event
type, product name and magnitude, which is all the program computes.
-/

set_option autoImplicit false

namespace InventoryMgr

/-- The variant-specific payload: `Electronics` carries `warrantyPeriod`
(months), `Food` carries `expirationDate` (an unparsed string).  This is
the closed-variant rendering of the two subclasses of `Product`. -/
inductive ProductKind where
  | electronics (warrantyPeriod : Int)
  | food (expirationDate : String)
  deriving Repr, DecidableEq

/-- One catalog entry: the fields of the C++ `Product` base class plus
the variant payload of the concrete subclass. -/
structure Product where
  productName : String
  price : ℚ
  stockQuantity : Int
  kind : ProductKind
  deriving Repr, DecidableEq

namespace Product

/-- Method `Product::applyDiscount(double percentage)`:
`price -= price * (percentage / 100);`. -/
def applyDiscount (p : Product) (percentage : ℚ) : Product :=
  { p with price := p.price - p.price * (percentage / 100) }

/-- Method `Electronics::getProductType` returns `"Electronics"`;
`Food::getProductType` returns `"Food"` (virtual dispatch over the
variant). -/
def getProductType (p : Product) : String :=
  match p.kind with
  | .electronics _ => "Electronics"
  | .food _ => "Food"

/-- Method `Product::updateStock(int quantity)`: `stockQuantity += quantity;`. -/
def updateStock (p : Product) (quantity : Int) : Product :=
  { p with stockQuantity := p.stockQuantity + quantity }

/-- Method `Product::sellProduct(int quantity)`: if `stockQuantity >= quantity`
decrement and return `true`, else return `false` leaving the product
unchanged.  Returns the success flag together with the post-call
product. -/
def sellProduct (p : Product) (quantity : Int) : Bool × Product :=
  if p.stockQuantity ≥ quantity then
    (true, { p with stockQuantity := p.stockQuantity - quantity })
  else
    (false, p)

end Product

/-- One line of `transaction_log.txt`, minus the opaque clock timestamp:
the integer overload of `logTransaction` writes
`<type> - <name> | Quantity: <q>`, the double overload writes
`<type> - <name> | Discount: <pct>%`. -/
inductive LogEntry where
  | quantityLine (type productName : String) (quantity : Int)
  | percentLine (type productName : String) (percentage : ℚ)
  deriving Repr, DecidableEq

/-- Constant `restockAmount`: the fixed restock quantity, `const int` 10. -/
def restockAmount : Int := 10

/-- The catalog map: `std::map<string, shared_ptr<Product>>` modelled as
an association list kept sorted by key (the map's iteration order). -/
abbrev Inventory := List (String × Product)

/-- Lookup `inventory.find(name)` on the association list. -/
def findProduct : Inventory → String → Option Product
  | [], _ => none
  | entry :: rest, name =>
      if entry.1 = name then some entry.2 else findProduct rest name

/-- In-place mutation through the map's `shared_ptr`: replace the value
stored under `name` (first occurrence), keeping the order of entries. -/
def storeProduct : Inventory → String → Product → Inventory
  | [], _, _ => []
  | entry :: rest, name, p =>
      if entry.1 = name then (name, p) :: rest
      else entry :: storeProduct rest name p

/-- Insertion `inventory[name] = product` on an absent key: `std::map` inserts the
new entry at its key-ordered position. -/
def insertSorted : Inventory → String → Product → Inventory
  | [], name, p => [(name, p)]
  | entry :: rest, name, p =>
      if name < entry.1 then (name, p) :: entry :: rest
      else entry :: insertSorted rest name p

/-- The full observable state: the `InventoryManager` object (its
`inventory` map) together with the two file sinks it writes to:
`transaction_log.txt` (append-only audit log) and `inventory.txt`
(overwritten snapshot). -/
structure ManagerState where
  inventory : Inventory
  auditLog : List LogEntry
  snapshotFile : List String
  deriving Repr, DecidableEq

namespace ManagerState

/-- Method `InventoryManager::logTransaction(type, name, int quantity)`: opens
the log in append mode and writes one timestamped line. -/
def logTransactionQty (st : ManagerState) (type productName : String)
    (quantity : Int) : ManagerState :=
  { st with auditLog := st.auditLog ++ [.quantityLine type productName quantity] }

/-- Method `InventoryManager::logTransaction(type, name, double percentage)`:
opens the log in append mode and writes one timestamped line. -/
def logTransactionPct (st : ManagerState) (type productName : String)
    (percentage : ℚ) : ManagerState :=
  { st with auditLog := st.auditLog ++ [.percentLine type productName percentage] }

/-- Method `InventoryManager::addProduct`: look the name up; if present, print
a notice and return without touching the map; otherwise insert under the
name. -/
def addProduct (st : ManagerState) (product : Product) : ManagerState :=
  let name := product.productName
  if (findProduct st.inventory name).isSome then st
  else { st with inventory := insertSorted st.inventory name product }

/-- Method `InventoryManager::sellProduct(name, quantity)`: look the name up;
if present delegate to `Product::sellProduct` (mutating the stored
product through the pointer), log a `"Sale"` line only on success, and
return the success flag; if absent return `false`. -/
def sellProduct (st : ManagerState) (productName : String) (quantity : Int) :
    Bool × ManagerState :=
  match findProduct st.inventory productName with
  | some p =>
      let r := p.sellProduct quantity
      let st' := { st with inventory := storeProduct st.inventory productName r.2 }
      if r.1 then (true, st'.logTransactionQty "Sale" productName quantity)
      else (r.1, st')
  | none => (false, st)

/-- Method `InventoryManager::applyDiscount(name, percentage)`: look the name
up; if present apply the discount unconditionally and log a
`"Discount"` line; if absent print a notice and change nothing. -/
def applyDiscount (st : ManagerState) (productName : String)
    (percentage : ℚ) : ManagerState :=
  match findProduct st.inventory productName with
  | some p =>
      let st' := { st with
        inventory := storeProduct st.inventory productName (p.applyDiscount percentage) }
      st'.logTransactionPct "Discount" productName percentage
  | none => st

/-- The line `saveInventoryToFile` writes for one entry:
`<name> | <type> | <stock> | `. -/
def snapshotLine (entry : String × Product) : String :=
  entry.1 ++ " | " ++ entry.2.getProductType ++ " | "
    ++ toString entry.2.stockQuantity ++ " | "

/-- Method `InventoryManager::saveInventoryToFile`: opens `inventory.txt` in
truncating mode (plain `ofstream`), then writes one line per map entry
in iteration order.  The previous file contents are discarded. -/
def saveInventoryToFile (st : ManagerState) : ManagerState :=
  { st with snapshotFile := st.inventory.map snapshotLine }

/-- Method `InventoryManager::restockProduct`: add `restockAmount` to the
product's stock and log a `"Restock"` line.  Returns the updated
product and the log line it appends. -/
def restockProduct (p : Product) : Product × LogEntry :=
  (p.updateStock restockAmount,
   .quantityLine "Restock" p.productName restockAmount)

/-- The loop body of `checkAndRestock` over the map entries, in
iteration order: each entry whose stock is below the threshold is
restocked (mutated in place) and one log line is emitted; each entry is
visited exactly once. -/
def restockPass (threshold : Int) : Inventory → Inventory × List LogEntry
  | [] => ([], [])
  | entry :: rest =>
      let r := restockPass threshold rest
      if entry.2.stockQuantity < threshold then
        let pr := restockProduct entry.2
        ((entry.1, pr.1) :: r.1, pr.2 :: r.2)
      else
        (entry :: r.1, r.2)

/-- Method `InventoryManager::checkAndRestock(threshold)`: scan the map and
restock every product whose stock is below the threshold, logging one
`"Restock"` line per restocked product. -/
def checkAndRestock (st : ManagerState) (threshold : Int) : ManagerState :=
  let r := restockPass threshold st.inventory
  { st with inventory := r.1, auditLog := st.auditLog ++ r.2 }

end ManagerState

/-- One caller-facing operation of the `InventoryManager` API, as
invoked by the menu loop. -/
inductive Op where
  | add (product : Product)
  | sell (productName : String) (quantity : Int)
  | discount (productName : String) (percentage : ℚ)
  | restock (threshold : Int)
  | exportSnapshot
  deriving Repr

/-- Run one operation against the state (discarding the `bool` a sale
returns to the caller). -/
def applyOp (st : ManagerState) : Op → ManagerState
  | .add p => st.addProduct p
  | .sell name qty => (st.sellProduct name qty).2
  | .discount name pct => st.applyDiscount name pct
  | .restock threshold => st.checkAndRestock threshold
  | .exportSnapshot => st.saveInventoryToFile

/-- Run a sequence of operations left to right. -/
def runOps (st : ManagerState) : List Op → ManagerState
  | [] => st
  | op :: rest => runOps (applyOp st op) rest

/-- The catalog invariant a `std::map` maintains: keys appear in
strictly increasing order. -/
def SortedKeys (inv : Inventory) : Prop :=
  List.Pairwise (fun a b : String × Product => a.1 < b.1) inv

instance (inv : Inventory) : Decidable (SortedKeys inv) :=
  inferInstanceAs (Decidable (List.Pairwise _ inv))

/-! ## Helper lemmas about the catalog map operations -/

theorem findProduct_storeProduct_ne (inv : Inventory) (name other : String)
    (p : Product) (h : other ≠ name) :
    findProduct (storeProduct inv name p) other = findProduct inv other := by
  induction inv with
  | nil => rfl
  | cons entry rest ih =>
    by_cases hk : entry.1 = name
    · subst hk
      simp [storeProduct, findProduct, Ne.symm h]
    · simp [storeProduct, hk, findProduct, ih]

theorem findProduct_storeProduct_self (inv : Inventory) (name : String)
    (p q : Product) (h : findProduct inv name = some q) :
    findProduct (storeProduct inv name p) name = some p := by
  induction inv with
  | nil => simp [findProduct] at h
  | cons entry rest ih =>
    by_cases hk : entry.1 = name
    · subst hk
      simp [storeProduct, findProduct]
    · simp [findProduct, hk] at h
      simp [storeProduct, hk, findProduct, ih h]

theorem storeProduct_found_eq (inv : Inventory) (name : String)
    (q : Product) (h : findProduct inv name = some q) :
    storeProduct inv name q = inv := by
  induction inv with
  | nil => rfl
  | cons entry rest ih =>
    by_cases hk : entry.1 = name
    · subst hk
      simp [findProduct] at h
      subst h
      simp [storeProduct]
    · simp [findProduct, hk] at h
      simp [storeProduct, hk, ih h]

theorem findProduct_insertSorted_self (inv : Inventory) (name : String)
    (p : Product) (h : findProduct inv name = none) :
    findProduct (insertSorted inv name p) name = some p := by
  induction inv with
  | nil => simp [insertSorted, findProduct]
  | cons entry rest ih =>
    by_cases hk : entry.1 = name
    · simp [findProduct, hk] at h
    · simp [findProduct, hk] at h
      by_cases hlt : name < entry.1
      · simp [insertSorted, hlt, findProduct]
      · simp [insertSorted, hlt, findProduct, hk, ih h]

theorem findProduct_insertSorted_ne (inv : Inventory) (name other : String)
    (p : Product) (h : other ≠ name) :
    findProduct (insertSorted inv name p) other = findProduct inv other := by
  induction inv with
  | nil => simp [insertSorted, findProduct, Ne.symm h]
  | cons entry rest ih =>
    by_cases hlt : name < entry.1
    · simp [insertSorted, hlt, findProduct, Ne.symm h]
    · simp [insertSorted, hlt, findProduct, ih]

theorem restockPass_inventory (threshold : Int) (inv : Inventory) :
    (ManagerState.restockPass threshold inv).1
      = inv.map (fun e =>
          if e.2.stockQuantity < threshold
          then (e.1, e.2.updateStock restockAmount) else e) := by
  induction inv with
  | nil => rfl
  | cons entry rest ih =>
    by_cases hc : entry.2.stockQuantity < threshold
    · simp [ManagerState.restockPass, ManagerState.restockProduct, hc, ih]
    · simp [ManagerState.restockPass, hc, ih]

theorem restockPass_log (threshold : Int) (inv : Inventory) :
    (ManagerState.restockPass threshold inv).2
      = (inv.filter (fun e => decide (e.2.stockQuantity < threshold))).map
          (fun e => .quantityLine "Restock" e.2.productName restockAmount) := by
  induction inv with
  | nil => rfl
  | cons entry rest ih =>
    by_cases hc : entry.2.stockQuantity < threshold
    · simp [ManagerState.restockPass, ManagerState.restockProduct, hc, ih,
        List.filter_cons]
    · simp [ManagerState.restockPass, hc, ih, List.filter_cons]

theorem findProduct_restockPass (threshold : Int) (inv : Inventory)
    (name : String) :
    findProduct (ManagerState.restockPass threshold inv).1 name
      = (findProduct inv name).map (fun q =>
          if q.stockQuantity < threshold
          then q.updateStock restockAmount else q) := by
  induction inv with
  | nil => rfl
  | cons entry rest ih =>
    by_cases hk : entry.1 = name
    · by_cases hc : entry.2.stockQuantity < threshold
      · simp [ManagerState.restockPass, ManagerState.restockProduct, hc,
          findProduct, hk]
      · simp [ManagerState.restockPass, hc, findProduct, hk]
    · by_cases hc : entry.2.stockQuantity < threshold
      · simp [ManagerState.restockPass, ManagerState.restockProduct, hc,
          findProduct, hk, ih]
      · simp [ManagerState.restockPass, hc, findProduct, hk, ih]

/-! ## Claim theorems -/

/-- Claim C1: a sale request never drives `stockQuantity` negative:
`Product::sellProduct(quantity)` with `stockQuantity >= quantity`
decrements stock by `quantity` (leaving `stock - quantity ≥ 0`) and
reports success; otherwise it leaves the product unchanged and reports
failure. -/
theorem claim_C1_sellProduct_guards_stock (p : Product) (quantity : Int) :
    (p.stockQuantity ≥ quantity →
      p.sellProduct quantity
          = (true, { p with stockQuantity := p.stockQuantity - quantity })
        ∧ 0 ≤ p.stockQuantity - quantity)
    ∧ (¬ p.stockQuantity ≥ quantity →
      p.sellProduct quantity = (false, p)) := by
  constructor
  · intro h
    exact ⟨by simp [Product.sellProduct, h], by omega⟩
  · intro h
    simp [Product.sellProduct, h]

/-- Witness for C1: a concrete successful sale (stock 5, quantity 3)
and a concrete failing one (stock 2, quantity 3). -/
theorem claim_C1_witness :
    ((5 : Int) ≥ 3
      ∧ Product.sellProduct ⟨"Widget", 5, 5, .electronics 12⟩ 3
          = (true, ⟨"Widget", 5, 2, .electronics 12⟩))
    ∧ (¬ (2 : Int) ≥ 3
      ∧ Product.sellProduct ⟨"Widget", 5, 2, .electronics 12⟩ 3
          = (false, ⟨"Widget", 5, 2, .electronics 12⟩)) := by
  constructor
  · exact ⟨by decide,
      ((claim_C1_sellProduct_guards_stock ⟨"Widget", 5, 5, .electronics 12⟩ 3).1
        (by decide)).1⟩
  · exact ⟨by decide,
      (claim_C1_sellProduct_guards_stock ⟨"Widget", 5, 2, .electronics 12⟩ 3).2
        (by decide)⟩

/-- Claim C3: `addProduct` on a name that already has an entry is a
no-op on the whole catalog state (existing entry untouched, nothing
inserted, size unchanged), and `addProduct` is idempotent: adding the
same product twice equals adding it once. -/
theorem claim_C3_addProduct_idempotent (st : ManagerState) (p q : Product)
    (h : findProduct st.inventory p.productName = some q) :
    st.addProduct p = st
    ∧ ∀ (st₂ : ManagerState) (p₂ : Product),
        (st₂.addProduct p₂).addProduct p₂ = st₂.addProduct p₂ := by
  constructor
  · simp [ManagerState.addProduct, h]
  · intro st₂ p₂
    cases hc : findProduct st₂.inventory p₂.productName with
    | some r => simp [ManagerState.addProduct, hc]
    | none =>
        simp [ManagerState.addProduct, hc,
          findProduct_insertSorted_self _ _ p₂ hc]

/-- Witness for C3: re-adding a product whose name is already in a
concrete one-entry catalog leaves the state unchanged. -/
theorem claim_C3_witness :
    findProduct [("Widget", ⟨"Widget", 5, 5, .electronics 12⟩)] "Widget"
        = some ⟨"Widget", 5, 5, .electronics 12⟩
    ∧ ManagerState.addProduct
        ⟨[("Widget", ⟨"Widget", 5, 5, .electronics 12⟩)], [], []⟩
        ⟨"Widget", 9, 1, .food "2025-06-01"⟩
        = ⟨[("Widget", ⟨"Widget", 5, 5, .electronics 12⟩)], [], []⟩ := by
  refine ⟨by decide, ?_⟩
  exact (claim_C3_addProduct_idempotent
    ⟨[("Widget", ⟨"Widget", 5, 5, .electronics 12⟩)], [], []⟩
    ⟨"Widget", 9, 1, .food "2025-06-01"⟩
    ⟨"Widget", 5, 5, .electronics 12⟩ (by decide)).1

/-- Claim C4: a sale on an absent name fails and leaves the whole state
(including the audit log) unchanged; a sale on a present product with
insufficient stock likewise fails with no state change; only a
successful sale appends a Sale log line. -/
theorem claim_C4_sell_failure_no_log (st : ManagerState) (name : String)
    (qty : Int) (p : Product) :
    (findProduct st.inventory name = none →
      st.sellProduct name qty = (false, st))
    ∧ (findProduct st.inventory name = some p → p.stockQuantity < qty →
      st.sellProduct name qty = (false, st))
    ∧ (findProduct st.inventory name = some p → p.stockQuantity ≥ qty →
      (st.sellProduct name qty).2.auditLog
        = st.auditLog ++ [.quantityLine "Sale" name qty]) := by
  refine ⟨?_, ?_, ?_⟩
  · intro h
    simp [ManagerState.sellProduct, h]
  · intro h hlt
    have hng : ¬ p.stockQuantity ≥ qty := by omega
    simp [ManagerState.sellProduct, h, Product.sellProduct, hng,
      storeProduct_found_eq _ _ _ h]
  · intro h hge
    simp [ManagerState.sellProduct, h, Product.sellProduct, hge,
      ManagerState.logTransactionQty]

/-- Witness for C4: selling the absent "Widget" from a concrete catalog
holding only "Gadget" returns failure and the very same state, with the
audit log untouched. -/
theorem claim_C4_witness :
    findProduct [("Gadget", ⟨"Gadget", 3, 4, .electronics 6⟩)] "Widget" = none
    ∧ ManagerState.sellProduct
        ⟨[("Gadget", ⟨"Gadget", 3, 4, .electronics 6⟩)], [], []⟩ "Widget" 3
        = (false, ⟨[("Gadget", ⟨"Gadget", 3, 4, .electronics 6⟩)], [], []⟩) := by
  refine ⟨by decide, ?_⟩
  exact (claim_C4_sell_failure_no_log
    ⟨[("Gadget", ⟨"Gadget", 3, 4, .electronics 6⟩)], [], []⟩ "Widget" 3
    ⟨"Gadget", 3, 4, .electronics 6⟩).1 (by decide)

/-- Claim C5: `applyDiscount` with percentage `p` sets the price to
`P - P * p/100` for every percentage (nothing rejects `p > 100`, which
can drive the price negative), and `InventoryManager::applyDiscount` on
a present product appends exactly one Discount log line with magnitude
`p`. -/
theorem claim_C5_discount_formula (st : ManagerState) (name : String)
    (percentage : ℚ) (q : Product)
    (h : findProduct st.inventory name = some q) :
    (∀ p : Product, (p.applyDiscount percentage).price
        = p.price - p.price * (percentage / 100))
    ∧ findProduct (st.applyDiscount name percentage).inventory name
        = some (q.applyDiscount percentage)
    ∧ (st.applyDiscount name percentage).auditLog
        = st.auditLog ++ [.percentLine "Discount" name percentage] := by
  refine ⟨fun p => rfl, ?_, ?_⟩
  · simp [ManagerState.applyDiscount, h, ManagerState.logTransactionPct,
      findProduct_storeProduct_self _ _ _ _ h]
  · simp [ManagerState.applyDiscount, h, ManagerState.logTransactionPct]

/-- Witness for C5: discounting the concrete "Gadget" priced 100 by 20
percent yields price 80 and exactly one Discount log line of
magnitude 20. -/
theorem claim_C5_witness :
    findProduct [("Gadget", ⟨"Gadget", 100, 7, .electronics 24⟩)] "Gadget"
        = some ⟨"Gadget", 100, 7, .electronics 24⟩
    ∧ (Product.applyDiscount ⟨"Gadget", 100, 7, .electronics 24⟩ 20).price = 80
    ∧ (ManagerState.applyDiscount
        ⟨[("Gadget", ⟨"Gadget", 100, 7, .electronics 24⟩)], [], []⟩
        "Gadget" 20).auditLog
        = [.percentLine "Discount" "Gadget" 20] := by
  refine ⟨by decide, ?_, ?_⟩
  · have hh := (claim_C5_discount_formula
      ⟨[("Gadget", ⟨"Gadget", 100, 7, .electronics 24⟩)], [], []⟩
      "Gadget" 20 ⟨"Gadget", 100, 7, .electronics 24⟩ (by decide)).1
      ⟨"Gadget", 100, 7, .electronics 24⟩
    rw [hh]
    norm_num
  · have hh := (claim_C5_discount_formula
      ⟨[("Gadget", ⟨"Gadget", 100, 7, .electronics 24⟩)], [], []⟩
      "Gadget" 20 ⟨"Gadget", 100, 7, .electronics 24⟩ (by decide)).2.2
    simpa using hh

/-- Claim C9: nothing in the core enforces `quantity > 0`: for a
present product with non-negative stock and any `quantity ≤ 0`, the
sale succeeds, stock changes by `-quantity` (so a strictly negative
quantity strictly increases stock), and a Sale log line with that
non-positive magnitude is appended. -/
theorem claim_C9_nonpositive_quantity_sells (st : ManagerState)
    (name : String) (qty : Int) (p : Product)
    (h : findProduct st.inventory name = some p)
    (h0 : 0 ≤ p.stockQuantity) (hq : qty ≤ 0) :
    (st.sellProduct name qty).1 = true
    ∧ findProduct (st.sellProduct name qty).2.inventory name
        = some { p with stockQuantity := p.stockQuantity - qty }
    ∧ p.stockQuantity ≤ p.stockQuantity - qty
    ∧ (qty < 0 → p.stockQuantity < p.stockQuantity - qty)
    ∧ (st.sellProduct name qty).2.auditLog
        = st.auditLog ++ [.quantityLine "Sale" name qty] := by
  have hge : p.stockQuantity ≥ qty := le_trans hq h0
  refine ⟨?_, ?_, by omega, fun hlt => by omega, ?_⟩
  · simp [ManagerState.sellProduct, h, Product.sellProduct, hge]
  · simp [ManagerState.sellProduct, h, Product.sellProduct, hge,
      ManagerState.logTransactionQty,
      findProduct_storeProduct_self _ _ _ _ h]
  · simp [ManagerState.sellProduct, h, Product.sellProduct, hge,
      ManagerState.logTransactionQty]

/-- Witness for C9: selling quantity -5 of a concrete product with
stock 4 succeeds and raises the stock to 9, logging a Sale line with
magnitude -5. -/
theorem claim_C9_witness :
    findProduct [("Gadget", ⟨"Gadget", 3, 4, .electronics 6⟩)] "Gadget"
        = some ⟨"Gadget", 3, 4, .electronics 6⟩
    ∧ (0 : Int) ≤ 4 ∧ (-5 : Int) ≤ 0
    ∧ (ManagerState.sellProduct
        ⟨[("Gadget", ⟨"Gadget", 3, 4, .electronics 6⟩)], [], []⟩
        "Gadget" (-5)).1 = true
    ∧ findProduct (ManagerState.sellProduct
        ⟨[("Gadget", ⟨"Gadget", 3, 4, .electronics 6⟩)], [], []⟩
        "Gadget" (-5)).2.inventory "Gadget"
        = some ⟨"Gadget", 3, 9, .electronics 6⟩ := by
  refine ⟨by decide, by decide, by decide, ?_, ?_⟩
  · exact (claim_C9_nonpositive_quantity_sells
      ⟨[("Gadget", ⟨"Gadget", 3, 4, .electronics 6⟩)], [], []⟩
      "Gadget" (-5) ⟨"Gadget", 3, 4, .electronics 6⟩
      (by decide) (by decide) (by decide)).1
  · have hh := (claim_C9_nonpositive_quantity_sells
      ⟨[("Gadget", ⟨"Gadget", 3, 4, .electronics 6⟩)], [], []⟩
      "Gadget" (-5) ⟨"Gadget", 3, 4, .electronics 6⟩
      (by decide) (by decide) (by decide)).2.1
    simpa using hh

/-- Claim C10: the two failure causes of a sale are indistinguishable
at the caller-facing API: an absent name and an insufficient-stock sale
both return the same plain `false` (with the state unchanged), and no
other signal separates them. -/
theorem claim_C10_failures_look_alike (st₁ st₂ : ManagerState)
    (n₁ n₂ : String) (q₁ q₂ : Int) (p : Product)
    (h₁ : findProduct st₁.inventory n₁ = none)
    (h₂ : findProduct st₂.inventory n₂ = some p)
    (hs : p.stockQuantity < q₂) :
    st₁.sellProduct n₁ q₁ = (false, st₁)
    ∧ st₂.sellProduct n₂ q₂ = (false, st₂)
    ∧ (st₁.sellProduct n₁ q₁).1 = (st₂.sellProduct n₂ q₂).1 := by
  have hng : ¬ p.stockQuantity ≥ q₂ := by omega
  refine ⟨?_, ?_, ?_⟩
  · simp [ManagerState.sellProduct, h₁]
  · simp [ManagerState.sellProduct, h₂, Product.sellProduct, hng,
      storeProduct_found_eq _ _ _ h₂]
  · simp [ManagerState.sellProduct, h₁, h₂, Product.sellProduct, hng]

/-- Witness for C10: a not-found sale and an insufficient-stock sale on
concrete catalogs both come back as plain `false` with their states
unchanged. -/
theorem claim_C10_witness :
    findProduct [("Gadget", ⟨"Gadget", 3, 4, .electronics 6⟩)] "Widget" = none
    ∧ findProduct [("Gadget", ⟨"Gadget", 3, 4, .electronics 6⟩)] "Gadget"
        = some ⟨"Gadget", 3, 4, .electronics 6⟩
    ∧ (4 : Int) < 9
    ∧ ManagerState.sellProduct
        ⟨[("Gadget", ⟨"Gadget", 3, 4, .electronics 6⟩)], [], []⟩ "Widget" 2
        = (false, ⟨[("Gadget", ⟨"Gadget", 3, 4, .electronics 6⟩)], [], []⟩)
    ∧ ManagerState.sellProduct
        ⟨[("Gadget", ⟨"Gadget", 3, 4, .electronics 6⟩)], [], []⟩ "Gadget" 9
        = (false, ⟨[("Gadget", ⟨"Gadget", 3, 4, .electronics 6⟩)], [], []⟩) := by
  refine ⟨by decide, by decide, by decide, ?_, ?_⟩
  · exact (claim_C10_failures_look_alike
      ⟨[("Gadget", ⟨"Gadget", 3, 4, .electronics 6⟩)], [], []⟩
      ⟨[("Gadget", ⟨"Gadget", 3, 4, .electronics 6⟩)], [], []⟩
      "Widget" "Gadget" 2 9 ⟨"Gadget", 3, 4, .electronics 6⟩
      (by decide) (by decide) (by decide)).1
  · exact (claim_C10_failures_look_alike
      ⟨[("Gadget", ⟨"Gadget", 3, 4, .electronics 6⟩)], [], []⟩
      ⟨[("Gadget", ⟨"Gadget", 3, 4, .electronics 6⟩)], [], []⟩
      "Widget" "Gadget" 2 9 ⟨"Gadget", 3, 4, .electronics 6⟩
      (by decide) (by decide) (by decide)).2.1

theorem mem_insertSorted {inv : Inventory} {name : String} {p : Product}
    {x : String × Product} (hx : x ∈ insertSorted inv name p) :
    x ∈ inv ∨ x = (name, p) := by
  induction inv with
  | nil => simpa [insertSorted] using hx
  | cons entry rest ih =>
    by_cases hlt : name < entry.1
    · simp only [insertSorted, if_pos hlt] at hx
      rcases List.mem_cons.mp hx with h | h
      · right; exact h
      · left; exact h
    · simp only [insertSorted, if_neg hlt] at hx
      rcases List.mem_cons.mp hx with h | h
      · left; exact List.mem_cons.mpr (Or.inl h)
      · rcases ih h with h' | h'
        · left; exact List.mem_cons.mpr (Or.inr h')
        · right; exact h'

theorem findProduct_none_key_ne {inv : Inventory} {name : String}
    (h : findProduct inv name = none) :
    ∀ x ∈ inv, x.1 ≠ name := by
  induction inv with
  | nil => simp
  | cons entry rest ih =>
    by_cases hk : entry.1 = name
    · simp [findProduct, hk] at h
    · simp [findProduct, hk] at h
      intro x hx
      rcases List.mem_cons.mp hx with h' | h'
      · rw [h']; exact hk
      · exact ih h x h'

theorem sortedKeys_insertSorted (inv : Inventory) (name : String)
    (p : Product) (hs : SortedKeys inv)
    (h : findProduct inv name = none) :
    SortedKeys (insertSorted inv name p) := by
  induction inv with
  | nil => simp [insertSorted, SortedKeys]
  | cons entry rest ih =>
    by_cases hk : entry.1 = name
    · simp [findProduct, hk] at h
    · simp [findProduct, hk] at h
      rw [SortedKeys, List.pairwise_cons] at hs
      by_cases hlt : name < entry.1
      · rw [SortedKeys]
        simp only [insertSorted, hlt, if_pos]
        rw [List.pairwise_cons]
        refine ⟨?_, List.pairwise_cons.mpr hs⟩
        intro b hb
        rcases List.mem_cons.mp hb with h' | h'
        · rw [h']; exact hlt
        · exact lt_trans hlt (hs.1 b h')
      · rw [SortedKeys]
        simp only [insertSorted, hlt, if_neg, not_false_iff]
        rw [List.pairwise_cons]
        refine ⟨?_, ih hs.2 h⟩
        intro b hb
        rcases mem_insertSorted hb with h' | h'
        · exact hs.1 b h'
        · rw [h']
          exact (not_lt.mp hlt).lt_of_ne hk

/-- Claim C2: `checkAndRestock(threshold)` adds exactly `restockAmount`
(10) units to every product whose pre-call stock is strictly below the
threshold, appends one Restock log line per restocked product, leaves
every product at or above the threshold unchanged, and evaluates
eligibility against pre-call stock levels (the result is an entrywise
function of the pre-call inventory). -/
theorem claim_C2_checkAndRestock_pre_call (st : ManagerState)
    (threshold : Int) :
    restockAmount = 10
    ∧ (st.checkAndRestock threshold).inventory
        = st.inventory.map (fun e =>
            if e.2.stockQuantity < threshold
            then (e.1, e.2.updateStock restockAmount) else e)
    ∧ (∀ name : String,
        findProduct (st.checkAndRestock threshold).inventory name
          = (findProduct st.inventory name).map (fun q =>
              if q.stockQuantity < threshold
              then q.updateStock restockAmount else q))
    ∧ (st.checkAndRestock threshold).auditLog
        = st.auditLog
          ++ (st.inventory.filter
                (fun e => decide (e.2.stockQuantity < threshold))).map
               (fun e => .quantityLine "Restock" e.2.productName restockAmount)
    ∧ (st.checkAndRestock threshold).snapshotFile = st.snapshotFile := by
  refine ⟨rfl, ?_, ?_, ?_, rfl⟩
  · simpa [ManagerState.checkAndRestock]
      using restockPass_inventory threshold st.inventory
  · intro name
    simpa [ManagerState.checkAndRestock]
      using findProduct_restockPass threshold st.inventory name
  · simp [ManagerState.checkAndRestock, restockPass_log]

/-- Claim C6: `saveInventoryToFile` writes exactly one line per product
in catalog order, formatted `<name> | <kindLabel> | <stock> | `, and
fully overwrites any prior snapshot content: the resulting file is a
function of the current inventory alone, so a second export reflects
only the second call's state; and `addProduct` keeps the catalog keys
in sorted (map iteration) order. -/
theorem claim_C6_snapshot_overwrite (st : ManagerState)
    (junk : List String) :
    (st.saveInventoryToFile).snapshotFile
      = st.inventory.map (fun e =>
          e.1 ++ " | " ++ e.2.getProductType ++ " | "
            ++ toString e.2.stockQuantity ++ " | ")
    ∧ ManagerState.saveInventoryToFile { st with snapshotFile := junk }
        = st.saveInventoryToFile
    ∧ (∀ st₂ : ManagerState,
        (ManagerState.saveInventoryToFile
          { st₂ with
            snapshotFile := (st.saveInventoryToFile).snapshotFile }).snapshotFile
          = st₂.inventory.map ManagerState.snapshotLine)
    ∧ (st.saveInventoryToFile).inventory = st.inventory
    ∧ (st.saveInventoryToFile).auditLog = st.auditLog
    ∧ (∀ (st₂ : ManagerState) (p : Product), SortedKeys st₂.inventory →
        SortedKeys (st₂.addProduct p).inventory) := by
  refine ⟨rfl, rfl, fun st₂ => rfl, rfl, rfl, ?_⟩
  intro st₂ p hs
  cases hc : findProduct st₂.inventory p.productName with
  | some q => simpa [ManagerState.addProduct, hc] using hs
  | none =>
      simpa [ManagerState.addProduct, hc]
        using sortedKeys_insertSorted st₂.inventory p.productName p hs hc

/-- Witness for C6: exporting a concrete one-product catalog with stale
snapshot content produces exactly the one formatted line, and adding a
product to a sorted (empty) catalog keeps the keys sorted. -/
theorem claim_C6_witness :
    (ManagerState.saveInventoryToFile
        ⟨[("Gadget", ⟨"Gadget", 3, 4, .electronics 6⟩)], [],
          ["stale line"]⟩).snapshotFile
      = ["Gadget | Electronics | 4 | "]
    ∧ SortedKeys ([] : Inventory)
    ∧ SortedKeys ((ManagerState.addProduct ⟨[], [], []⟩
        ⟨"Gadget", 3, 4, .electronics 6⟩).inventory) := by
  refine ⟨?_, by simp [SortedKeys], ?_⟩
  · have hh := (claim_C6_snapshot_overwrite
      ⟨[("Gadget", ⟨"Gadget", 3, 4, .electronics 6⟩)], [], ["stale line"]⟩
      []).1
    simpa [Product.getProductType] using hh
  · exact (claim_C6_snapshot_overwrite ⟨[], [], []⟩ []).2.2.2.2.2
      ⟨[], [], []⟩ ⟨"Gadget", 3, 4, .electronics 6⟩ (by simp [SortedKeys])

theorem sellProduct_inventory (st : ManagerState) (name : String)
    (qty : Int) (p : Product) (h : findProduct st.inventory name = some p) :
    (st.sellProduct name qty).2.inventory
      = storeProduct st.inventory name (p.sellProduct qty).2 := by
  by_cases hge : p.stockQuantity ≥ qty <;>
    simp [ManagerState.sellProduct, h, Product.sellProduct, hge,
      ManagerState.logTransactionQty]

theorem applyDiscount_inventory (st : ManagerState) (name : String)
    (pct : ℚ) (p : Product) (h : findProduct st.inventory name = some p) :
    (st.applyDiscount name pct).inventory
      = storeProduct st.inventory name (p.applyDiscount pct) := by
  simp [ManagerState.applyDiscount, h, ManagerState.logTransactionPct]

theorem applyOp_auditLog_extend (st : ManagerState) (op : Op) :
    ∃ l, (applyOp st op).auditLog = st.auditLog ++ l := by
  cases op with
  | add p =>
      refine ⟨[], ?_⟩
      cases hc : findProduct st.inventory p.productName <;>
        simp [applyOp, ManagerState.addProduct, hc]
  | sell name qty =>
      cases hc : findProduct st.inventory name with
      | none => exact ⟨[], by simp [applyOp, ManagerState.sellProduct, hc]⟩
      | some p =>
          by_cases hge : p.stockQuantity ≥ qty
          · exact ⟨[.quantityLine "Sale" name qty],
              by simp [applyOp, ManagerState.sellProduct, hc,
                Product.sellProduct, hge, ManagerState.logTransactionQty]⟩
          · exact ⟨[],
              by simp [applyOp, ManagerState.sellProduct, hc,
                Product.sellProduct, hge]⟩
  | discount name pct =>
      cases hc : findProduct st.inventory name with
      | none => exact ⟨[], by simp [applyOp, ManagerState.applyDiscount, hc]⟩
      | some p =>
          exact ⟨[.percentLine "Discount" name pct],
            by simp [applyOp, ManagerState.applyDiscount, hc,
              ManagerState.logTransactionPct]⟩
  | restock threshold =>
      exact ⟨(ManagerState.restockPass threshold st.inventory).2,
        by simp [applyOp, ManagerState.checkAndRestock]⟩
  | exportSnapshot =>
      exact ⟨[], by simp [applyOp, ManagerState.saveInventoryToFile]⟩

theorem applyOp_extends_auditLog (st : ManagerState) (op : Op) :
    st.auditLog <+: (applyOp st op).auditLog := by
  rcases applyOp_auditLog_extend st op with ⟨l, hl⟩
  exact ⟨l, hl.symm⟩

theorem runOps_extends_auditLog (ops : List Op) (st : ManagerState) :
    st.auditLog <+: (runOps st ops).auditLog := by
  induction ops generalizing st with
  | nil => exact ⟨[], List.append_nil _⟩
  | cons op rest ih =>
      exact List.IsPrefix.trans (applyOp_extends_auditLog st op) (ih (applyOp st op))

/-- Claim C7: the audit log is append-only: each `logTransaction`
overload appends exactly one line, and across every single operation
and every operation sequence the log before is a prefix of the log
after (no core operation truncates, mutates or deletes log content). -/
theorem claim_C7_audit_log_append_only (st : ManagerState) (op : Op)
    (ops : List Op) (type name : String) (q : Int) (pct : ℚ) :
    (st.logTransactionQty type name q).auditLog
        = st.auditLog ++ [.quantityLine type name q]
    ∧ (st.logTransactionPct type name pct).auditLog
        = st.auditLog ++ [.percentLine type name pct]
    ∧ st.auditLog <+: (applyOp st op).auditLog
    ∧ st.auditLog <+: (runOps st ops).auditLog :=
  ⟨rfl, rfl, applyOp_extends_auditLog st op, runOps_extends_auditLog ops st⟩

/-- Claim C8: `price` and `stockQuantity` are the only product fields
mutated post-construction: selling, discounting and restocking preserve
every product's `productName` and variant payload; a sale mutates only
the named product's stock (its price is carried over), a discount only
the named product's price (its stock is carried over), and every other
product is left entirely unchanged. -/
theorem claim_C8_frame_conditions (st : ManagerState)
    (name other : String) (qty : Int) (pct : ℚ) (pr : Product)
    (hne : other ≠ name) (hfind : findProduct st.inventory name = some pr) :
    ((pr.sellProduct qty).2.productName = pr.productName
      ∧ (pr.sellProduct qty).2.price = pr.price
      ∧ (pr.sellProduct qty).2.kind = pr.kind)
    ∧ ((pr.applyDiscount pct).productName = pr.productName
      ∧ (pr.applyDiscount pct).stockQuantity = pr.stockQuantity
      ∧ (pr.applyDiscount pct).kind = pr.kind)
    ∧ (∀ d : Int, (pr.updateStock d).productName = pr.productName
      ∧ (pr.updateStock d).price = pr.price
      ∧ (pr.updateStock d).kind = pr.kind)
    ∧ findProduct (st.sellProduct name qty).2.inventory other
        = findProduct st.inventory other
    ∧ findProduct (st.sellProduct name qty).2.inventory name
        = some (pr.sellProduct qty).2
    ∧ findProduct (st.applyDiscount name pct).inventory other
        = findProduct st.inventory other
    ∧ findProduct (st.applyDiscount name pct).inventory name
        = some (pr.applyDiscount pct)
    ∧ (∀ (threshold : Int) (n : String) (q : Product),
        findProduct st.inventory n = some q →
        findProduct (st.checkAndRestock threshold).inventory n
          = some (if q.stockQuantity < threshold
                  then q.updateStock restockAmount else q))
    ∧ (st.saveInventoryToFile).inventory = st.inventory := by
  refine ⟨?_, ⟨rfl, rfl, rfl⟩, fun d => ⟨rfl, rfl, rfl⟩, ?_, ?_, ?_, ?_, ?_, rfl⟩
  · by_cases hge : pr.stockQuantity ≥ qty <;> simp [Product.sellProduct, hge]
  · rw [sellProduct_inventory st name qty pr hfind,
      findProduct_storeProduct_ne _ _ _ _ hne]
  · rw [sellProduct_inventory st name qty pr hfind]
    exact findProduct_storeProduct_self _ _ _ _ hfind
  · rw [applyDiscount_inventory st name pct pr hfind,
      findProduct_storeProduct_ne _ _ _ _ hne]
  · rw [applyDiscount_inventory st name pct pr hfind]
    exact findProduct_storeProduct_self _ _ _ _ hfind
  · intro threshold n q hq
    simp [ManagerState.checkAndRestock, findProduct_restockPass, hq]

/-- Witness for C8: in a concrete two-product catalog, selling "Alpha"
leaves "Beta" untouched, and discounting "Alpha" replaces exactly its
entry by the discounted product. -/
theorem claim_C8_witness :
    ("Beta" ≠ "Alpha")
    ∧ findProduct
        [("Alpha", ⟨"Alpha", 10, 8, .electronics 3⟩),
         ("Beta", ⟨"Beta", 4, 2, .food "2025-01-01"⟩)] "Alpha"
        = some ⟨"Alpha", 10, 8, .electronics 3⟩
    ∧ findProduct (ManagerState.sellProduct
        ⟨[("Alpha", ⟨"Alpha", 10, 8, .electronics 3⟩),
          ("Beta", ⟨"Beta", 4, 2, .food "2025-01-01"⟩)], [], []⟩
        "Alpha" 2).2.inventory "Beta"
        = findProduct
            [("Alpha", ⟨"Alpha", 10, 8, .electronics 3⟩),
             ("Beta", ⟨"Beta", 4, 2, .food "2025-01-01"⟩)] "Beta"
    ∧ findProduct (ManagerState.applyDiscount
        ⟨[("Alpha", ⟨"Alpha", 10, 8, .electronics 3⟩),
          ("Beta", ⟨"Beta", 4, 2, .food "2025-01-01"⟩)], [], []⟩
        "Alpha" 50).inventory "Alpha"
        = some (Product.applyDiscount ⟨"Alpha", 10, 8, .electronics 3⟩ 50) := by
  refine ⟨by decide, by decide, ?_, ?_⟩
  · exact (claim_C8_frame_conditions
      ⟨[("Alpha", ⟨"Alpha", 10, 8, .electronics 3⟩),
        ("Beta", ⟨"Beta", 4, 2, .food "2025-01-01"⟩)], [], []⟩
      "Alpha" "Beta" 2 50 ⟨"Alpha", 10, 8, .electronics 3⟩
      (by decide) (by decide)).2.2.2.1
  · exact (claim_C8_frame_conditions
      ⟨[("Alpha", ⟨"Alpha", 10, 8, .electronics 3⟩),
        ("Beta", ⟨"Beta", 4, 2, .food "2025-01-01"⟩)], [], []⟩
      "Alpha" "Beta" 2 50 ⟨"Alpha", 10, 8, .electronics 3⟩
      (by decide) (by decide)).2.2.2.2.2.2.1

end InventoryMgr
